import Mathlib

/-!
Verification development for the frontmatter document model and safe-write
subsystem of the node-manager-mcp repository, together with the MCP tool
layer of `simple_server.py` and `tools/utility_tools.py`.

The codec and store modules (`simple_file_ops.py`, the chatmode and
instruction managers) are not present in the source tree, only their tests
and callers are; those parts are modelled from the specification text, as
marked on each definition.  The tool layer is translated from the source
files that are present.
-/

/-! Basic character and list utilities used by the codec model. -/

def sqC : Char := Char.ofNat 39

def dqC : Char := Char.ofNat 34

def sqStr : String := String.mk [sqC]

def dqStr : String := String.mk [dqC]

def isWSChar (c : Char) : Bool :=
  decide (c = (' ') ∨ c = ('\t') ∨ c = ('\r') ∨ c = ('\n'))

def trimL (cs : List Char) : List Char := cs.dropWhile isWSChar

def trimR (cs : List Char) : List Char := (cs.reverse.dropWhile isWSChar).reverse

def trim (cs : List Char) : List Char := trimR (trimL cs)

/-- Split a character list on a separator character; always returns at least
one (possibly empty) chunk, in the manner of a line split. -/
def splitOnChar (c : Char) : List Char → List (List Char)
  | [] => [[]]
  | x :: rest =>
    match splitOnChar c rest with
    | [] => [[x]]
    | l :: ls => if x = c then [] :: l :: ls else (x :: l) :: ls

/-- Join chunks with a separator character; the inverse of `splitOnChar`. -/
def joinWith (c : Char) : List (List Char) → List Char
  | [] => []
  | [l] => l
  | l :: ls => l ++ c :: joinWith c ls

/-- Split at the first occurrence of a character, returning the parts before
and after it, or none when the character does not occur. -/
def splitFirst (c : Char) : List Char → Option (List Char × List Char)
  | [] => none
  | x :: rest =>
    if x = c then some ([], rest)
    else
      match splitFirst c rest with
      | none => none
      | some (a, b) => some (x :: a, b)

def startsWithL (p l : List Char) : Bool :=
  match p, l with
  | [], _ => true
  | _ :: _, [] => false
  | a :: p', b :: l' => decide (a = b) && startsWithL p' l'

def hasSub (p : List Char) : List Char → Bool
  | [] => startsWithL p []
  | c :: rest => startsWithL p (c :: rest) || hasSub p rest

def hasColonSpace : List Char → Bool
  | [] => false
  | c :: rest =>
    match rest with
    | [] => false
    | c₂ :: _ => (decide (c = (':')) && decide (c₂ = (' '))) || hasColonSpace rest

/-! The frontmatter value model: a tagged variant of the scalar types the
spec allows in metadata (string, boolean, integer, list of strings). -/

/-- Modelled from the spec: the typed scalar values carried by frontmatter
metadata in `simple_file_ops.py` (absent from the source tree). -/
inductive Val where
  | str : String → Val
  | bool : Bool → Val
  | int : Int → Val
  | list : List String → Val
deriving DecidableEq

/-! Decoding, modelled from the specification of `parse_frontmatter`. -/

def digitsToNat (cs : List Char) : Nat :=
  cs.foldl (fun n c => 10 * n + (c.toNat - 48)) 0

def isIntLit : List Char → Bool
  | [] => false
  | c :: rest =>
    if c = ('-') then !rest.isEmpty && rest.all Char.isDigit
    else (c :: rest).all Char.isDigit

def intOfLit : List Char → Int
  | [] => 0
  | c :: rest =>
    if c = ('-') then -(digitsToNat rest : Int) else (digitsToNat (c :: rest) : Int)

/-- Modelled from the spec: a value wrapped in a matching pair of single or
double quotes has the quote pair stripped; the quotes are delimiters, not
content. -/
def stripQuotes : List Char → Option (List Char)
  | [] => none
  | c :: rest =>
    if (c = sqC ∨ c = dqC) ∧ rest ≠ [] ∧ rest.getLast? = some c then
      some rest.dropLast
    else none

/-- Modelled from the spec: a bracketed value is a list of comma-separated
quoted or bare string items. -/
def parseListItems (inner : List Char) : List String :=
  (splitOnChar (',') inner).foldr
    (fun item acc =>
      let t := trim item
      if t = [] then acc
      else
        match stripQuotes t with
        | some s => String.mk s :: acc
        | none => String.mk t :: acc)
    []

/-- Modelled from the spec: value typing of `parse_frontmatter`, applied to
an already trimmed value — quoted values are strings with the quote pair
stripped, then `true`/`false` (case-sensitive) are booleans, integer
literals are integers, bracketed values are lists, anything else is the
literal string. -/
def parseValueCore (t : List Char) : Val :=
  match stripQuotes t with
  | some inner => Val.str (String.mk inner)
  | none =>
    if t = ("true").data then Val.bool true
    else if t = ("false").data then Val.bool false
    else if isIntLit t then Val.int (intOfLit t)
    else if t.head? = some ('[') ∧ t.getLast? = some (']') then
      Val.list (parseListItems ((t.drop 1).dropLast))
    else Val.str (String.mk t)

def parseValue (cs : List Char) : Val := parseValueCore (trim cs)

/-- Modelled from the spec: a metadata line is a `key: value` pair; lines
starting with a `#` (after optional leading whitespace) are comments and
ignored, as are lines with no colon. -/
def parseLine (line : List Char) : Option (String × Val) :=
  if (trimL line).head? = some ('#') then none
  else
    match splitFirst (':') line with
    | none => none
    | some (k, v) =>
      let kt := trim k
      if kt = [] then none else some (String.mk kt, parseValue v)

/-- Split the lines following an opening delimiter at the first closing
`---` line, or return none when no closing delimiter exists. -/
def splitAtDelim : List (List Char) → Option (List (List Char) × List (List Char))
  | [] => none
  | l :: rest =>
    if l = ("---").data then some ([], rest)
    else
      match splitAtDelim rest with
      | none => none
      | some (a, b) => some (l :: a, b)

/-- Modelled from the spec: `parse_frontmatter` of `simple_file_ops.py`
(absent from the source tree).  A document starting with a `---` line whose
block is closed by a second `---` line decodes into metadata plus the body
after the delimiter; otherwise the text decodes soft as no metadata plus
the raw text unchanged. -/
def parseFMLines (raw : String) : List (List Char) → List (String × Val) × String
  | [] => ([], raw)
  | first :: rest =>
    if first = ("---").data then
      match splitAtDelim rest with
      | some (metaLines, bodyLines) =>
        (metaLines.filterMap parseLine, String.mk (joinWith ('\n') bodyLines))
      | none => ([], raw)
    else ([], raw)

def parse_frontmatter (raw : String) : List (String × Val) × String :=
  parseFMLines raw (splitOnChar ('\n') raw.data)

/-! Encoding, modelled from the specification of the serializer. -/

/-- Modelled from the spec: quoting policy for string values — a value
containing a single quote is wrapped in double quotes; otherwise a value
containing a glob wildcard, a colon followed by a space, or the empty value
is wrapped in single quotes; plain strings are emitted bare. -/
def renderString (s : String) : List Char :=
  if sqC ∈ s.data then dqC :: (s.data ++ [dqC])
  else if ('*') ∈ s.data ∨ hasColonSpace s.data = true ∨ s.data = [] then
    sqC :: (s.data ++ [sqC])
  else s.data

def renderItems : List String → List Char
  | [] => []
  | [s] => dqC :: (s.data ++ [dqC])
  | s :: rest => dqC :: (s.data ++ [dqC]) ++ (',') :: (' ') :: renderItems rest

/-- Modelled from the spec: booleans and integers are emitted as bare
literals; lists are emitted bracketed with each element double-quoted. -/
def renderVal : Val → List Char
  | Val.str s => renderString s
  | Val.bool b => if b then ("true").data else ("false").data
  | Val.int i => (toString i).data
  | Val.list l => ('[') :: (renderItems l ++ [(']')])

def metaLine (p : String × Val) : List Char :=
  p.1.data ++ (':') :: (' ') :: renderVal p.2

def metaBlock (md : List (String × Val)) : List Char :=
  md.foldr (fun p acc => metaLine p ++ ('\n') :: acc) []

/-- Modelled from the spec: `serialize` emits nothing for empty metadata,
and otherwise a `---` delimited block of `key: value` lines in insertion
order followed by the body. -/
def serialize (md : List (String × Val)) (body : String) : String :=
  if md.isEmpty then body
  else
    String.mk (("---").data ++ ('\n') ::
      (metaBlock md ++ (("---").data ++ ('\n') :: body.data)))

/-! The document store model: a flat directory of named text files, with
the crash-safe write path, CRUD operations and section append modelled
from the specification of SafeDocumentStore (absent from the source tree). -/

/-- Modelled from the spec: the filesystem directory owning the document
files, as a mapping from filename to raw text content. -/
structure FS where
  files : List (String × String)
deriving DecidableEq

def lookupL : List (String × String) → String → Option String
  | [], _ => none
  | e :: l, p => if e.1 = p then some e.2 else lookupL l p

def eraseL : List (String × String) → String → List (String × String)
  | [], _ => []
  | e :: l, p => if e.1 = p then eraseL l p else e :: eraseL l p

def FS.lookup (fs : FS) (p : String) : Option String := lookupL fs.files p

def FS.erase (fs : FS) (p : String) : FS := FS.mk (eraseL fs.files p)

def FS.insert (fs : FS) (p v : String) : FS :=
  FS.mk ((p, v) :: (fs.erase p).files)

/-- Failure injection points of the atomic write path, as enumerated by the
spec: the encode step, the temporary-file write, or the atomic replace. -/
inductive WriteOutcome where
  | encodeFail : WriteOutcome
  | tmpFail : WriteOutcome
  | renameFail : WriteOutcome
  | success : WriteOutcome
deriving DecidableEq

/-- Modelled from the spec: the update path `write_frontmatter_file` of
`simple_file_ops.py` (absent from the source tree).  Before touching the
target the current bytes are copied to a backup sibling; the new content is
encoded to a temporary file and atomically renamed over the target; on
success the backup is deleted.  If encoding or the temporary write fails
the original is untouched and the backup is removed; if the rename fails
the target is restored from the backup before the error propagates. -/
def write_frontmatter_file (fs : FS) (path : String) (md : List (String × Val))
    (body : String) (outcome : WriteOutcome) : FS × Except String Bool :=
  let bak := path ++ (".bak")
  let tmp := path ++ (".tmp")
  let fs₁ := match fs.lookup path with
    | some cur => fs.insert bak cur
    | none => fs
  match outcome with
  | WriteOutcome.encodeFail => (fs₁.erase bak, Except.error ("encoding failed"))
  | WriteOutcome.tmpFail => ((fs₁.erase bak).erase tmp, Except.error ("temporary write failed"))
  | WriteOutcome.renameFail =>
    let fs₂ := fs₁.insert tmp (serialize md body)
    let fs₃ := match fs.lookup path with
      | some cur => fs₂.insert path cur
      | none => fs₂
    (fs₃.erase tmp, Except.error ("atomic replace failed"))
  | WriteOutcome.success =>
    let fs₂ := fs₁.insert tmp (serialize md body)
    let fs₃ := (fs₂.insert path (serialize md body)).erase tmp
    (fs₃.erase bak, Except.ok true)

/-- Modelled from the spec: `read(name)` fails with NotFoundError when the
file does not exist, and otherwise decodes the raw text via the codec. -/
def read_document (fs : FS) (name : String) : Except String (List (String × Val) × String) :=
  match fs.lookup name with
  | none => Except.error (("NotFoundError: ") ++ name)
  | some raw => Except.ok (parse_frontmatter raw)

/-- Modelled from the spec: `create(name, metadata, body)` fails with
AlreadyExistsError when the file exists, and otherwise encodes and writes
the new file. -/
def create_document (fs : FS) (name : String) (md : List (String × Val))
    (body : String) : Except String FS :=
  match fs.lookup name with
  | some _ => Except.error (("AlreadyExistsError: ") ++ name)
  | none => Except.ok (fs.insert name (serialize md body))

/-- Modelled from the spec: `delete(name)` fails with NotFoundError when
the file is missing and otherwise removes it. -/
def delete_document (fs : FS) (name : String) : Except String FS :=
  match fs.lookup name with
  | none => Except.error (("NotFoundError: ") ++ name)
  | some _ => Except.ok (fs.erase name)

def firstIdxOf (target : List Char) : List (List Char) → Option Nat
  | [] => none
  | l :: ls =>
    if l = target then some 0
    else (firstIdxOf target ls).map (fun n => n + 1)

def firstHeaderIdx : List (List Char) → Option Nat
  | [] => none
  | l :: ls =>
    if l.head? = some ('#') then some 0
    else (firstHeaderIdx ls).map (fun n => n + 1)

/-- Modelled from the spec: the body transformation of `append_to_section`
— the entry is inserted at the end of the content block of the first body
line equal to the section header, before the next header line; when the
header is absent, or the section runs to the end of the body, the entry is
appended at the end of the body and no header is synthesized. -/
def appendToSection (body header entry : String) : String :=
  let lines := splitOnChar ('\n') body.data
  match firstIdxOf header.data lines with
  | none => body ++ entry
  | some i =>
    match firstHeaderIdx (lines.drop (i + 1)) with
    | none => body ++ entry
    | some k =>
      let j := i + 1 + k
      String.mk (joinWith ('\n') (lines.take j) ++ ('\n') :: (entry.data ++ joinWith ('\n') (lines.drop j)))

/-! The MCP tool layer, translated from `simple_server.py` and
`tools/utility_tools.py`.  Manager and library operations live in modules
that are not part of the source tree, so they appear as oracle parameters
that may either return a value or raise; `PyExc.fileOp` stands for
`FileOperationError` and `PyExc.other` for any other exception.  A tool
result of `Except.ok` is a string handed to the hosting process, while
`Except.error` would be an exception propagated out of the tool. -/

inductive PyExc where
  | fileOp : String → PyExc
  | other : String → PyExc

def excMsg : PyExc → String
  | PyExc.fileOp m => m
  | PyExc.other m => m

abbrev Op (σ α : Type) := σ → σ × Except PyExc α

def quoted (s : String) : String := sqStr ++ s ++ sqStr

def strTake (n : Nat) (s : String) : String := String.mk (s.data.take n)

def excOk {α : Type} : Except PyExc α → Bool
  | Except.ok _ => true
  | Except.error _ => false

/-- Shared translation of the repeated `try ... except FileOperationError
... except Exception` template wrapped around a single manager call. -/
def toolResult {σ α : Type} (onOk : α → String) (onFileOp onOther : String → String)
    (w : σ × Except PyExc α) : σ × Except PyExc String :=
  match w with
  | (s₂, Except.ok v) => (s₂, Except.ok (onOk v))
  | (s₂, Except.error (PyExc.fileOp m)) => (s₂, Except.ok (onFileOp m))
  | (s₂, Except.error (PyExc.other m)) => (s₂, Except.ok (onOther m))

/-- Shared translation of a bare `try ... except Exception` handler. -/
def toolResultAll {σ α : Type} (onOk : α → String) (onErr : String → String)
    (w : σ × Except PyExc α) : σ × Except PyExc String :=
  match w with
  | (s₂, Except.ok v) => (s₂, Except.ok (onOk v))
  | (s₂, Except.error e) => (s₂, Except.ok (onErr (excMsg e)))

/-- Translated from `create_chatmode` lines 135-138: split the optional
comma-separated tools argument, strip the items and drop the empty ones;
an empty or missing argument stays `none`. -/
def parseToolsCSV (t : String) : List String :=
  (splitOnChar (',') t.data).filterMap
    (fun x => if trim x = [] then none else some (String.mk (trim x)))

def parseToolsArg (tools : Option String) : Option (List String) :=
  match tools with
  | none => none
  | some t => if t = ("") then none else some (parseToolsCSV t)

/-- Python dict assignment on the ordered metadata mapping: replace the
value in place when the key exists, append the pair otherwise. -/
def dictSet (fm : List (String × Val)) (k : String) (v : Val) : List (String × Val) :=
  if fm.any (fun p => decide (p.1 = k)) then
    fm.map (fun p => if p.1 = k then (k, v) else p)
  else fm ++ [(k, v)]

structure ChatmodeInfo where
  name : String
  filename : String
  description : String
  tools : List String
  size : Nat
  content_preview : String

structure InstructionInfo where
  name : String
  filename : String
  description : String
  size : Nat
  content_preview : String

def formatChatmode (c : ChatmodeInfo) : String :=
  let r := ("📄 ") ++ c.name ++ ("\\n") ++ ("   File: ") ++ c.filename ++ ("\\n")
  let r := if c.description = ("") then r else r ++ ("   Description: ") ++ c.description ++ ("\\n")
  let r := if c.tools.isEmpty then r else r ++ ("   Tools: ") ++ toString c.tools.length ++ (" available\\n")
  let r := r ++ ("   Size: ") ++ toString c.size ++ (" bytes\\n")
  let r := if c.content_preview = ("") then r else r ++ ("   Preview: ") ++ strTake 100 c.content_preview ++ ("...\\n")
  r ++ ("\\n")

def formatInstruction (c : InstructionInfo) : String :=
  let r := ("📄 ") ++ c.name ++ ("\\n") ++ ("   File: ") ++ c.filename ++ ("\\n")
  let r := if c.description = ("") then r else r ++ ("   Description: ") ++ c.description ++ ("\\n")
  let r := r ++ ("   Size: ") ++ toString c.size ++ (" bytes\\n")
  let r := if c.content_preview = ("") then r else r ++ ("   Preview: ") ++ strTake 100 c.content_preview ++ ("...\\n")
  r ++ ("\\n")

def list_chatmodes {σ : Type} (op : Op σ (List ChatmodeInfo)) (s : σ) :
    σ × Except PyExc String :=
  toolResultAll
    (fun cs =>
      if cs.isEmpty then ("No VS Code chatmode files found in the prompts directory")
      else cs.foldl (fun acc c => acc ++ formatChatmode c)
        (("Found ") ++ toString cs.length ++ (" VS Code chatmode(s):\\n\\n")))
    (fun m => ("Error listing VS Code chatmodes: ") ++ m)
    (op s)

def get_chatmode {σ : Type} (op : Op σ String) (filename : String) (s : σ) :
    σ × Except PyExc String :=
  toolResult (fun raw => raw)
    (fun m => ("Error getting VS Code chatmode ") ++ quoted filename ++ (": ") ++ m)
    (fun m => ("Unexpected error getting VS Code chatmode ") ++ quoted filename ++ (": ") ++ m)
    (op s)

def create_chatmode {σ : Type} (readOnly : Bool) (op : Option (List String) → Op σ Bool)
    (filename : String) (tools : Option String) (s : σ) : σ × Except PyExc String :=
  if readOnly then (s, Except.ok ("Error: Server is running in read-only mode"))
  else
    toolResult
      (fun success =>
        if success then ("Successfully created VS Code chatmode: ") ++ filename
        else ("Failed to create VS Code chatmode: ") ++ filename)
      (fun m => ("Error creating VS Code chatmode ") ++ quoted filename ++ (": ") ++ m)
      (fun m => ("Unexpected error creating VS Code chatmode ") ++ quoted filename ++ (": ") ++ m)
      (op (parseToolsArg tools) s)

def update_chatmode {σ : Type} (readOnly : Bool) (getOp : Op σ (List (String × Val)))
    (updOp : List (String × Val) → Option String → Op σ Bool)
    (filename : String) (description : Option String) (content : Option String)
    (tools : Option String) (s : σ) : σ × Except PyExc String :=
  if readOnly then (s, Except.ok ("Error: Server is running in read-only mode"))
  else
    match getOp s with
    | (s₂, Except.error (PyExc.fileOp m)) =>
      (s₂, Except.ok (("Error updating VS Code chatmode ") ++ quoted filename ++ (": ") ++ m))
    | (s₂, Except.error (PyExc.other m)) =>
      (s₂, Except.ok (("Unexpected error updating VS Code chatmode ") ++ quoted filename ++ (": ") ++ m))
    | (s₂, Except.ok current) =>
      let fm1 := match description with
        | some d => dictSet current ("description") (Val.str d)
        | none => current
      let fm2 := match tools with
        | some t => dictSet fm1 ("tools") (Val.list (parseToolsCSV t))
        | none => fm1
      toolResult
        (fun success =>
          if success then ("Successfully updated VS Code chatmode: ") ++ filename
          else ("Failed to update VS Code chatmode: ") ++ filename)
        (fun m => ("Error updating VS Code chatmode ") ++ quoted filename ++ (": ") ++ m)
        (fun m => ("Unexpected error updating VS Code chatmode ") ++ quoted filename ++ (": ") ++ m)
        (updOp fm2 content s₂)

def delete_chatmode {σ : Type} (readOnly : Bool) (op : Op σ Bool) (filename : String)
    (s : σ) : σ × Except PyExc String :=
  if readOnly then (s, Except.ok ("Error: Server is running in read-only mode"))
  else
    toolResult
      (fun success =>
        if success then ("Successfully deleted VS Code chatmode: ") ++ filename
        else ("Failed to delete VS Code chatmode: ") ++ filename)
      (fun m => ("Error deleting VS Code chatmode ") ++ quoted filename ++ (": ") ++ m)
      (fun m => ("Unexpected error deleting VS Code chatmode ") ++ quoted filename ++ (": ") ++ m)
      (op s)

def update_chatmode_from_source {σ : Type} (readOnly : Bool) (op : Op σ String)
    (filename : String) (s : σ) : σ × Except PyExc String :=
  if readOnly then (s, Except.ok ("Error: Server is running in read-only mode"))
  else
    toolResult
      (fun msg => ("Successfully updated VS Code chatmode ") ++ quoted filename ++
        (" from source: ") ++ msg)
      (fun m => ("Error updating VS Code chatmode ") ++ quoted filename ++ (" from source: ") ++ m)
      (fun m => ("Unexpected error updating VS Code chatmode ") ++ quoted filename ++
        (" from source: ") ++ m)
      (op s)

def list_instructions {σ : Type} (op : Op σ (List InstructionInfo)) (s : σ) :
    σ × Except PyExc String :=
  toolResultAll
    (fun is =>
      if is.isEmpty then ("No VS Code instruction files found in the prompts directory")
      else is.foldl (fun acc c => acc ++ formatInstruction c)
        (("Found ") ++ toString is.length ++ (" VS Code instruction(s):\\n\\n")))
    (fun m => ("Error listing VS Code instructions: ") ++ m)
    (op s)

def get_instruction {σ : Type} (op : Op σ String) (filename : String) (s : σ) :
    σ × Except PyExc String :=
  toolResult (fun raw => raw)
    (fun m => ("Error getting VS Code instruction ") ++ quoted filename ++ (": ") ++ m)
    (fun m => ("Unexpected error getting VS Code instruction ") ++ quoted filename ++ (": ") ++ m)
    (op s)

def create_instruction {σ : Type} (readOnly : Bool) (op : Op σ Bool) (filename : String)
    (s : σ) : σ × Except PyExc String :=
  if readOnly then (s, Except.ok ("Error: Server is running in read-only mode"))
  else
    toolResult
      (fun success =>
        if success then ("Successfully created VS Code instruction: ") ++ filename
        else ("Failed to create VS Code instruction: ") ++ filename)
      (fun m => ("Error creating VS Code instruction ") ++ quoted filename ++ (": ") ++ m)
      (fun m => ("Unexpected error creating VS Code instruction ") ++ quoted filename ++ (": ") ++ m)
      (op s)

def update_instruction {σ : Type} (readOnly : Bool)
    (op : Option (List (String × Val)) → Option String → Op σ Bool)
    (filename : String) (description : Option String) (content : Option String)
    (s : σ) : σ × Except PyExc String :=
  if readOnly then (s, Except.ok ("Error: Server is running in read-only mode"))
  else
    let fmUpdates : List (String × Val) := match description with
      | some d => [(("description"), Val.str d)]
      | none => []
    toolResult
      (fun success =>
        if success then ("Successfully updated VS Code instruction: ") ++ filename
        else ("Failed to update VS Code instruction: ") ++ filename)
      (fun m => ("Error updating VS Code instruction ") ++ quoted filename ++ (": ") ++ m)
      (fun m => ("Unexpected error updating VS Code instruction ") ++ quoted filename ++ (": ") ++ m)
      (op (if fmUpdates.isEmpty then none else some fmUpdates) content s)

def delete_instruction {σ : Type} (readOnly : Bool) (op : Op σ Bool) (filename : String)
    (s : σ) : σ × Except PyExc String :=
  if readOnly then (s, Except.ok ("Error: Server is running in read-only mode"))
  else
    toolResult
      (fun success =>
        if success then ("Successfully deleted VS Code instruction: ") ++ filename
        else ("Failed to delete VS Code instruction: ") ++ filename)
      (fun m => ("Error deleting VS Code instruction ") ++ quoted filename ++ (": ") ++ m)
      (fun m => ("Unexpected error deleting VS Code instruction ") ++ quoted filename ++ (": ") ++ m)
      (op s)

structure PromptsDirInfo where
  dir : String
  dirExists : Bool
  chatmodeFiles : List String
  instructionFiles : List String

def formatPromptsDir (i : PromptsDirInfo) : String :=
  let r := ("VS Code Prompts Directory: ") ++ i.dir ++ ("\\n")
  let r := r ++ ("Exists: ") ++ (if i.dirExists then ("Yes") else ("No")) ++ ("\\n")
  if i.dirExists then
    let r := r ++ ("Chatmode files: ") ++ toString i.chatmodeFiles.length ++ ("\\n")
    let r := r ++ ("Instruction files: ") ++ toString i.instructionFiles.length ++ ("\\n")
    let r := if i.chatmodeFiles.isEmpty then r
      else i.chatmodeFiles.foldl (fun acc f => acc ++ ("  - ") ++ f ++ ("\\n")) (r ++ ("Chatmode files:\\n"))
    if i.instructionFiles.isEmpty then r
    else i.instructionFiles.foldl (fun acc f => acc ++ ("  - ") ++ f ++ ("\\n")) (r ++ ("Instruction files:\\n"))
  else r

def get_prompts_directory {σ : Type} (op : Op σ PromptsDirInfo) (s : σ) :
    σ × Except PyExc String :=
  toolResultAll formatPromptsDir
    (fun m => ("Error getting prompts directory info: ") ++ m)
    (op s)

structure LibraryEntry where
  name : String
  author : Option String
  description : Option String
  category : Option String
  tags : List String
  install_name : Option String

structure LibraryCategory where
  name : String
  id : String
  description : Option String

structure LibraryData where
  library_name : String
  version : String
  last_updated : String
  total_chatmodes : Nat
  total_instructions : Nat
  filtered_chatmodes : Nat
  filtered_instructions : Nat
  filter_category : Option String
  filter_search : Option String
  chatmodes : List LibraryEntry
  instructions : List LibraryEntry
  categories : List LibraryCategory

def formatLibraryEntry (suffix : String) (e : LibraryEntry) : String :=
  let r := ("**") ++ e.name ++ ("** by ") ++ (e.author.getD ("Unknown")) ++ ("\\n")
  let r := r ++ ("   📝 ") ++ (e.description.getD ("No description")) ++ ("\\n")
  let r := r ++ ("   🏷️ Category: ") ++ (e.category.getD ("Unknown")) ++ ("\\n")
  let r := if e.tags.isEmpty then r
    else r ++ ("   🔖 Tags: ") ++ String.intercalate (", ") e.tags ++ ("\\n")
  r ++ ("   📁 Install as: ") ++ (e.install_name.getD (e.name ++ suffix)) ++ ("\\n\\n")

def formatLibrary (d : LibraryData) : String :=
  let r := ("📚 ") ++ d.library_name ++ (" (v") ++ d.version ++ (")\\n")
  let r := r ++ ("📅 Last Updated: ") ++ d.last_updated ++ ("\\n")
  let r := r ++ ("📊 Total: ") ++ toString d.total_chatmodes ++ (" chatmodes, ") ++
    toString d.total_instructions ++ (" instructions\\n")
  let r := if d.filter_category.isSome ∨ d.filter_search.isSome then
      let r := r ++ ("🔍 Filtered: ") ++ toString d.filtered_chatmodes ++ (" chatmodes, ") ++
        toString d.filtered_instructions ++ (" instructions\\n")
      let fs := (match d.filter_category with
          | some c => [(("category: ") ++ c)]
          | none => []) ++
        (match d.filter_search with
          | some q => [(("search: ") ++ q)]
          | none => [])
      r ++ ("   Filters applied: ") ++ String.intercalate (", ") fs ++ ("\\n")
    else r
  let r := r ++ ("\\n")
  let r := if d.chatmodes.isEmpty then r ++ ("🤖 No chatmodes found matching your criteria.\\n\\n")
    else d.chatmodes.foldl (fun acc e => acc ++ formatLibraryEntry (".chatmode.md") e)
      (r ++ ("🤖 **CHATMODES** (") ++ toString d.chatmodes.length ++ (" available):\\n\\n"))
  let r := if d.instructions.isEmpty then r ++ ("📋 No instructions found matching your criteria.\\n\\n")
    else d.instructions.foldl (fun acc e => acc ++ formatLibraryEntry (".instruction.md") e)
      (r ++ ("📋 **INSTRUCTIONS** (") ++ toString d.instructions.length ++ (" available):\\n\\n"))
  let r := if d.categories.isEmpty then r
    else (d.categories.foldl
      (fun acc c => acc ++ ("   • ") ++ c.name ++ (" (") ++ c.id ++ (") - ") ++
        (c.description.getD ("No description")) ++ ("\\n"))
      (r ++ ("🗂️ **AVAILABLE CATEGORIES**:\\n"))) ++ ("\\n")
  r ++ ("💡 **Usage**: Use install_from_library(") ++ quoted ("Name") ++ (") to install any item.\\n")

def browse_mode_library {σ : Type} (op : Op σ LibraryData) (s : σ) :
    σ × Except PyExc String :=
  toolResult formatLibrary
    (fun m => ("Error browsing library: ") ++ m)
    (fun m => ("Unexpected error browsing library: ") ++ m)
    (op s)

structure InstallResult where
  ok : Bool
  message : String
  filename : String
  source_url : String
  kind : String

def install_from_library {σ : Type} (readOnly : Bool) (op : Op σ InstallResult)
    (s : σ) : σ × Except PyExc String :=
  if readOnly then (s, Except.ok ("Error: Server is running in read-only mode"))
  else
    toolResult
      (fun r =>
        if r.ok then
          ("✅ ") ++ r.message ++ ("\\n\\n📁 Filename: ") ++ r.filename ++
          ("\\n🔗 Source: ") ++ r.source_url ++ ("\\n📝 Type: ") ++ r.kind ++
          ("\\n\\nThe ") ++ r.kind ++ (" is now available in VS Code!")
        else ("❌ Installation failed: ") ++ r.message)
      (fun m => ("Error installing from library: ") ++ m)
      (fun m => ("Unexpected error installing from library: ") ++ m)
      (op s)

structure RefreshResult where
  ok : Bool
  message : String
  library_name : String
  version : String
  last_updated : String
  total_chatmodes : Nat
  total_instructions : Nat

def refresh_library {σ : Type} (op : Op σ RefreshResult) (s : σ) :
    σ × Except PyExc String :=
  toolResult
    (fun r =>
      if r.ok then
        ("✅ ") ++ r.message ++ ("\\n\\n📚 Library: ") ++ r.library_name ++
        (" (v") ++ r.version ++ (")\\n📅 Last Updated: ") ++ r.last_updated ++
        ("\\n📊 Available: ") ++ toString r.total_chatmodes ++ (" chatmodes, ") ++
        toString r.total_instructions ++
        (" instructions\\n\\nUse browse_mode_library() to see the updated content.")
      else ("❌ Refresh failed: ") ++ r.message)
    (fun m => ("Error refreshing library: ") ++ m)
    (fun m => ("Unexpected error refreshing library: ") ++ m)
    (op s)

def util_get_prompts_directory {σ : Type} (op : Op σ String) (s : σ) :
    σ × Except PyExc String :=
  toolResultAll (fun dir => dir)
    (fun m => ("Error getting prompts directory: ") ++ m)
    (op s)

/-- Tail of the `remember` tool: the final update call with the catch-all
handler of its enclosing try block. -/
def rememberFinish {σ : Type} (memory_item : String) (w : σ × Except PyExc Bool) :
    σ × Except PyExc String :=
  match w with
  | (s₄, Except.error e) => (s₄, Except.ok (("Error: Exception occurred: ") ++ excMsg e))
  | (s₄, Except.ok _) =>
    (s₄, Except.ok (("Remembered: ") ++ memory_item ++
      ("\nThis memory will be available to AI assistants when the memory instruction is active in VS Code.")))

/-- Translated from `remember` in `tools/utility_tools.py`: after the
read-only and empty-item guards, the memory file is created when missing,
its raw content fetched, optimized via sampling with a fallback to a plain
append when sampling fails or does not return text, and written back; any
exception inside the body is caught and reported as a string. -/
def rememberCore {σ : Type} (memory_item : String) (sampleIsText : Bool)
    (getRawOp : Op σ String) (sampleOp : Op σ String) (updateOp : String → Op σ Bool)
    (timestamp : String) (s₁ : σ) : σ × Except PyExc String :=
  match getRawOp s₁ with
  | (s₂, Except.error e) =>
    (s₂, Except.ok (("Error: Exception occurred: ") ++ excMsg e))
  | (s₂, Except.ok memory_content) =>
    let new_memory_entry := ("- ") ++ timestamp ++ (": ") ++ memory_item ++ ("\n")
    let s₃ := (sampleOp s₂).1
    let updated_content := match (sampleOp s₂).2 with
      | Except.ok resp =>
        if sampleIsText then resp else memory_content ++ ("\n") ++ new_memory_entry
      | Except.error _ => memory_content ++ ("\n") ++ new_memory_entry
    rememberFinish memory_item (updateOp updated_content s₃)

def remember {σ : Type} (readOnly : Bool) (memory_item : String) (memoryPath : String)
    (existsOp : σ → Bool) (createOp : Op σ Bool) (getRawOp : Op σ String)
    (sampleOp : Op σ String) (sampleIsText : Bool) (updateOp : String → Op σ Bool)
    (timestamp : String) (s : σ) : σ × Except PyExc String :=
  if readOnly then (s, Except.ok ("Error: Server is running in read-only mode"))
  else if trim memory_item.data = [] then (s, Except.ok ("Error: No memory item provided."))
  else
    match (if existsOp s then (s, Except.ok true) else createOp s) with
    | (s₁, Except.error e) =>
      (s₁, Except.ok (("Error: Exception occurred: ") ++ excMsg e))
    | (s₁, Except.ok false) =>
      (s₁, Except.ok (("Error: Failed to create memory file at ") ++ memoryPath))
    | (s₁, Except.ok true) =>
      rememberCore memory_item sampleIsText getRawOp sampleOp updateOp timestamp s₁

/-- Translated from `ModeManagerServer.__init__` line 53: the read-only
flag is the environment variable `MCP_CHATMODE_READ_ONLY` (defaulting to
`false`) lowered and compared to `true`. -/
def envLookup (env : List (String × String)) (k : String) : Option String :=
  (env.find? (fun p => decide (p.1 = k))).map (fun p => p.2)

def getenvD (env : List (String × String)) (k d : String) : String :=
  (envLookup env k).getD d

def lowerStr (s : String) : String := String.mk (s.data.map Char.toLower)

def readOnlyFlag (env : List (String × String)) : Bool :=
  decide (lowerStr (getenvD env ("MCP_CHATMODE_READ_ONLY") ("false")) = ("true"))

/-! Auxiliary lemmas about the line splitting and joining primitives. -/

theorem splitOnChar_ne_nil (c : Char) (cs : List Char) : splitOnChar c cs ≠ [] := by
  induction cs with
  | nil => simp [splitOnChar]
  | cons x rest ih =>
    simp only [splitOnChar]
    cases h : splitOnChar c rest with
    | nil => simp
    | cons l ls =>
      by_cases hx : x = c <;> simp [hx]

theorem splitOnChar_cons_sep (c : Char) (rest : List Char) :
    splitOnChar c (c :: rest) = [] :: splitOnChar c rest := by
  simp only [splitOnChar]
  cases h : splitOnChar c rest with
  | nil => exact absurd h (splitOnChar_ne_nil c rest)
  | cons l ls => simp

theorem splitOnChar_cons_ne (c x : Char) (rest : List Char) (hx : x ≠ c) :
    splitOnChar c (x :: rest) =
      (x :: (splitOnChar c rest).headI) :: (splitOnChar c rest).tail := by
  simp only [splitOnChar]
  cases h : splitOnChar c rest with
  | nil => exact absurd h (splitOnChar_ne_nil c rest)
  | cons l ls => simp [hx]

theorem splitOnChar_append (c : Char) (a rest : List Char) (h : c ∉ a) :
    splitOnChar c (a ++ c :: rest) = a :: splitOnChar c rest := by
  induction a with
  | nil => simpa using splitOnChar_cons_sep c rest
  | cons x a' ih =>
    have hx : x ≠ c := by
      intro hxc
      exact h (by simp [hxc])
    have ha' : c ∉ a' := fun hm => h (by simp [hm])
    rw [List.cons_append, splitOnChar_cons_ne c x (a' ++ c :: rest) hx, ih ha']
    simp

theorem joinWith_cons (c : Char) (l : List Char) (ls : List (List Char)) (h : ls ≠ []) :
    joinWith c (l :: ls) = l ++ c :: joinWith c ls := by
  cases ls with
  | nil => exact absurd rfl h
  | cons l₂ ls₂ => simp [joinWith]

theorem joinWith_splitOnChar (c : Char) (cs : List Char) :
    joinWith c (splitOnChar c cs) = cs := by
  induction cs with
  | nil => simp [splitOnChar, joinWith]
  | cons x rest ih =>
    by_cases hx : x = c
    · subst hx
      rw [splitOnChar_cons_sep]
      rw [joinWith_cons x [] (splitOnChar x rest) (splitOnChar_ne_nil x rest)]
      simp [ih]
    · rw [splitOnChar_cons_ne c x rest hx]
      cases h : splitOnChar c rest with
      | nil => exact absurd h (splitOnChar_ne_nil c rest)
      | cons l ls =>
        rw [h] at ih
        cases ls with
        | nil =>
          simp only [List.headI, List.tail]
          simp only [joinWith] at ih ⊢
          simp [ih]
        | cons l₂ ls₂ =>
          simp only [List.headI, List.tail]
          rw [joinWith_cons c (x :: l) (l₂ :: ls₂) (by simp)]
          rw [joinWith_cons c l (l₂ :: ls₂) (by simp)] at ih
          simp [ih]

theorem splitAtDelim_append (ls rest : List (List Char))
    (h : ∀ l ∈ ls, l ≠ ("---").data) :
    splitAtDelim (ls ++ ("---").data :: rest) = some (ls, rest) := by
  induction ls with
  | nil => simp [splitAtDelim]
  | cons l ls' ih =>
    have hl : l ≠ ("---").data := h l (by simp)
    have h' : ∀ x ∈ ls', x ≠ ("---").data := fun x hx => h x (by simp [hx])
    rw [List.cons_append]
    simp only [splitAtDelim, hl, if_false, ih h']

theorem splitAtDelim_none (ls : List (List Char))
    (h : ∀ l ∈ ls, l ≠ ("---").data) : splitAtDelim ls = none := by
  induction ls with
  | nil => rfl
  | cons l ls' ih =>
    have hl : l ≠ ("---").data := h l (by simp)
    have h' : ∀ x ∈ ls', x ≠ ("---").data := fun x hx => h x (by simp [hx])
    simp [splitAtDelim, hl, ih h']

theorem splitFirst_append (c : Char) (k r : List Char) (h : c ∉ k) :
    splitFirst c (k ++ c :: r) = some (k, r) := by
  induction k with
  | nil => simp [splitFirst]
  | cons x k' ih =>
    have hx : x ≠ c := fun hxc => h (by simp [hxc])
    have h' : c ∉ k' := fun hm => h (by simp [hm])
    rw [List.cons_append]
    simp [splitFirst, hx, ih h']

/-! Trimming lemmas and the safety predicates for the round-trip theorem. -/

theorem dropWhile_length_le (p : Char → Bool) (l : List Char) :
    (List.dropWhile p l).length ≤ l.length := by
  induction l with
  | nil => simp
  | cons x l ih =>
    by_cases hp : p x = true
    · rw [List.dropWhile_cons_of_pos hp]
      exact Nat.le_succ_of_le ih
    · rw [List.dropWhile_cons_of_neg (by simp [hp])]

theorem dropWhile_cons_self {p : Char → Bool} {x : Char} {l : List Char}
    (h : List.dropWhile p (x :: l) = x :: l) : p x = false := by
  by_cases hp : p x = true
  · rw [List.dropWhile_cons_of_pos hp] at h
    have hlen := congrArg List.length h
    have hle := dropWhile_length_le p l
    simp at hlen
    omega
  · simpa using hp

theorem trimL_append (k x : List Char) (hk : trimL k = k) (hne : k ≠ []) :
    trimL (k ++ x) = k ++ x := by
  cases k with
  | nil => exact absurd rfl hne
  | cons c k' =>
    have hc : isWSChar c = false := dropWhile_cons_self hk
    have hc' : ¬(isWSChar c = true) := by simp [hc]
    simp only [trimL, List.cons_append, List.dropWhile_cons_of_neg hc']

theorem trimL_cons_ws (c : Char) (x : List Char) (hc : isWSChar c = true) :
    trimL (c :: x) = trimL x := by
  simp [trimL, List.dropWhile_cons_of_pos hc]

theorem trim_cons_ws (c : Char) (x : List Char) (hc : isWSChar c = true) :
    trim (c :: x) = trim x := by
  simp [trim, trimL_cons_ws c x hc]

/-- Round-trip safety of a metadata key: nonempty, already trimmed, free of
colons and newlines, and not starting a comment. -/
def KeySafe (k : String) : Prop :=
  k.data ≠ [] ∧ trimL k.data = k.data ∧ trimR k.data = k.data ∧
    (':') ∉ k.data ∧ ('\n') ∉ k.data ∧ k.data.head? ≠ some ('#')

instance (k : String) : Decidable (KeySafe k) := by
  unfold KeySafe
  infer_instance

/-- Round-trip safety of a metadata value: its rendering stays on one line
and re-parses to the value itself. -/
def ValSafe (v : Val) : Prop :=
  ('\n') ∉ renderVal v ∧ parseValue (renderVal v) = v

instance (v : Val) : Decidable (ValSafe v) := by
  unfold ValSafe
  infer_instance

theorem mem_metaLine_newline {p : String × Val} (hk : ('\n') ∉ p.1.data)
    (hv : ('\n') ∉ renderVal p.2) : ('\n') ∉ metaLine p := by
  intro hmem
  simp only [metaLine, List.mem_append, List.mem_cons] at hmem
  rcases hmem with h | h | h | h
  · exact hk h
  · exact absurd h (by decide)
  · exact absurd h (by decide)
  · exact hv h

theorem metaLine_ne_delim (p : String × Val) :
    metaLine p ≠ ("---").data := by
  intro heq
  have : (':') ∈ metaLine p := by
    simp [metaLine]
  rw [heq] at this
  exact absurd this (by decide)

theorem splitOnChar_metaBlock (md : List (String × Val)) (tail : List Char)
    (h : ∀ p ∈ md, ('\n') ∉ metaLine p) :
    splitOnChar ('\n') (metaBlock md ++ tail) =
      md.map metaLine ++ splitOnChar ('\n') tail := by
  induction md with
  | nil => simp [metaBlock]
  | cons p md' ih =>
    have hp : ('\n') ∉ metaLine p := h p (by simp)
    have h' : ∀ q ∈ md', ('\n') ∉ metaLine q := fun q hq => h q (by simp [hq])
    have : metaBlock (p :: md') ++ tail =
        metaLine p ++ ('\n') :: (metaBlock md' ++ tail) := by
      simp [metaBlock]
    rw [this, splitOnChar_append ('\n') (metaLine p) _ hp, ih h']
    simp

theorem parseLine_metaLine (p : String × Val) (hk : KeySafe p.1) (hv : ValSafe p.2) :
    parseLine (metaLine p) = some p := by
  obtain ⟨hne, htl, htr, hcolon, _, hhash⟩ := hk
  have hfirst : splitFirst (':') (metaLine p) = some (p.1.data, (' ') :: renderVal p.2) := by
    simpa [metaLine] using splitFirst_append (':') p.1.data ((' ') :: renderVal p.2) hcolon
  have hcomment : (trimL (metaLine p)).head? ≠ some ('#') := by
    unfold metaLine
    rw [show p.1.data ++ (':') :: (' ') :: renderVal p.2 =
      p.1.data ++ ((':') :: (' ') :: renderVal p.2) from rfl]
    rw [trimL_append p.1.data _ htl hne]
    cases hd : p.1.data with
    | nil => exact absurd hd hne
    | cons c k' =>
      rw [hd] at hhash
      simp at hhash ⊢
      exact hhash
  have htrim : trim p.1.data = p.1.data := by
    unfold trim
    rw [htl, htr]
  unfold parseLine
  rw [if_neg hcomment, hfirst]
  simp only [htrim]
  rw [if_neg hne]
  have hval : parseValue ((' ') :: renderVal p.2) = p.2 := by
    unfold parseValue
    rw [trim_cons_ws (' ') _ (by decide)]
    exact hv.2
  rw [hval]

theorem filterMap_parseLine_map (md : List (String × Val))
    (h : ∀ p ∈ md, parseLine (metaLine p) = some p) :
    (md.map metaLine).filterMap parseLine = md := by
  induction md with
  | nil => rfl
  | cons p md' ih =>
    have hp := h p (by simp)
    have h' : ∀ q ∈ md', parseLine (metaLine q) = some q := fun q hq => h q (by simp [hq])
    simp [List.filterMap_cons, hp, ih h']

theorem string_data_mk (l : List Char) : (String.mk l).data = l := rfl

theorem string_mk_data (s : String) : String.mk s.data = s := rfl

/-- C1 counterexample: the round-trip fails as universally stated — the
string value `true` is emitted unquoted by the serializer and re-parses as
a boolean, so decoding the encoding of `{a: "true"}` with body `b` does not
return the original metadata. -/
theorem c1_roundtrip_counterexample :
    parse_frontmatter (serialize [(("a"), Val.str ("true"))] ("b")) ≠
      ([(("a"), Val.str ("true"))], ("b")) := by decide

/-- C1 (amended): parsing the text produced by `serialize` returns exactly
the original metadata (keys, insertion order, values and types) and the
original body, for metadata whose keys are trimmed, nonempty, free of
colons and newlines and not comment-like, and whose values render to a
single line that re-parses to the same value; when the metadata is empty
the body must not itself decode as a frontmatter document. -/
theorem c1_roundtrip (md : List (String × Val)) (body : String)
    (hk : ∀ p ∈ md, KeySafe p.1) (hv : ∀ p ∈ md, ValSafe p.2)
    (h0 : md ≠ [] ∨ parse_frontmatter body = ([], body)) :
    parse_frontmatter (serialize md body) = (md, body) := by
  by_cases hmd : md = []
  · subst hmd
    rcases h0 with h | h
    · exact absurd rfl h
    · simpa [serialize] using h
  · have hlines : ∀ p ∈ md, ('\n') ∉ metaLine p := fun p hp =>
      mem_metaLine_newline (hk p hp).2.2.2.2.1 (hv p hp).1
    have hser : serialize md body = String.mk (("---").data ++ ('\n') ::
        (metaBlock md ++ (("---").data ++ ('\n') :: body.data))) := by
      simp [serialize, hmd]
    have hsplit : splitOnChar ('\n') (("---").data ++ ('\n') ::
        (metaBlock md ++ (("---").data ++ ('\n') :: body.data))) =
        ("---").data :: (md.map metaLine ++
          (("---").data :: splitOnChar ('\n') body.data)) := by
      rw [splitOnChar_append ('\n') (("---").data) _ (by decide)]
      rw [splitOnChar_metaBlock md _ hlines]
      rw [splitOnChar_append ('\n') (("---").data) _ (by decide)]
    have hdelim : splitAtDelim (md.map metaLine ++
        (("---").data :: splitOnChar ('\n') body.data)) =
        some (md.map metaLine, splitOnChar ('\n') body.data) := by
      apply splitAtDelim_append
      intro l hl
      obtain ⟨p, _, rfl⟩ := List.mem_map.mp hl
      exact metaLine_ne_delim p
    have hfm : (md.map metaLine).filterMap parseLine = md :=
      filterMap_parseLine_map md (fun p hp => parseLine_metaLine p (hk p hp) (hv p hp))
    rw [hser]
    unfold parse_frontmatter
    rw [string_data_mk, hsplit]
    simp only [parseFMLines, hdelim, if_pos rfl, hfm, joinWith_splitOnChar,
      string_mk_data, if_true]

def mdSample : List (String × Val) :=
  [(("applyTo"), Val.str ("**")), (("description"), Val.str ("Test description")),
   (("enabled"), Val.bool true), (("count"), Val.int 42),
   (("tools"), Val.list [("a"), ("b")])]

/-- Witness for the amended round-trip theorem at a concrete metadata
mapping exercising every value type. -/
theorem c1_roundtrip_witness :
    parse_frontmatter (serialize mdSample ("Hello\nWorld")) =
      (mdSample, ("Hello\nWorld")) :=
  c1_roundtrip mdSample ("Hello\nWorld") (by decide) (by decide) (Or.inl (by decide))

/-! Branch lemmas for the value parser, and the quoting and typing claims. -/

theorem stripQuotes_cons_none (c : Char) (rest : List Char) (h1 : c ≠ sqC)
    (h2 : c ≠ dqC) : stripQuotes (c :: rest) = none := by
  simp only [stripQuotes]
  rw [if_neg]
  rintro ⟨hc, -, -⟩
  rcases hc with hc | hc
  · exact h1 hc
  · exact h2 hc

theorem parseValueCore_of_none (t : List Char) (h0 : stripQuotes t = none) :
    parseValueCore t =
      (if t = ("true").data then Val.bool true
       else if t = ("false").data then Val.bool false
       else if isIntLit t then Val.int (intOfLit t)
       else if t.head? = some ('[') ∧ t.getLast? = some (']') then
         Val.list (parseListItems ((t.drop 1).dropLast))
       else Val.str (String.mk t)) := by
  unfold parseValueCore
  rw [h0]

theorem cons_ne_of_head {c₁ c₂ : Char} {l₁ l₂ : List Char} (h : c₁ ≠ c₂)
    (hl : l₂.head? = some c₂) : c₁ :: l₁ ≠ l₂ := by
  intro he
  rw [← he] at hl
  simp at hl
  exact h hl

theorem parseValueCore_int (t : List Char) (h : isIntLit t = true) :
    parseValueCore t = Val.int (intOfLit t) := by
  cases t with
  | nil => exact absurd h (by decide)
  | cons c rest =>
    have hc : c = ('-') ∨ c.isDigit = true := by
      by_cases hm : c = ('-')
      · exact Or.inl hm
      · simp only [isIntLit] at h
        rw [if_neg hm] at h
        simp [List.all_cons] at h
        exact Or.inr h.1
    have hsq : c ≠ sqC := by
      rcases hc with rfl | hd
      · decide
      · intro hq
        rw [hq] at hd
        exact absurd hd (by decide)
    have hdq : c ≠ dqC := by
      rcases hc with rfl | hd
      · decide
      · intro hq
        rw [hq] at hd
        exact absurd hd (by decide)
    have ht : c :: rest ≠ ("true").data := by
      intro he
      rw [he] at h
      exact absurd h (by decide)
    have hf : c :: rest ≠ ("false").data := by
      intro he
      rw [he] at h
      exact absurd h (by decide)
    rw [parseValueCore_of_none _ (stripQuotes_cons_none c rest hsq hdq),
      if_neg ht, if_neg hf, if_pos h]

theorem parseValueCore_list (t : List Char) (h1 : t.head? = some ('['))
    (h2 : t.getLast? = some (']')) :
    parseValueCore t = Val.list (parseListItems ((t.drop 1).dropLast)) := by
  cases t with
  | nil => exact absurd h1 (by decide)
  | cons c rest =>
    have hc : c = ('[') := by simpa using h1
    subst hc
    have hint : isIntLit (('[') :: rest) = false := by
      simp only [isIntLit]
      rw [if_neg (by decide)]
      simp [List.all_cons]
    have ht : ('[') :: rest ≠ ("true").data :=
      @cons_ne_of_head ('[') ('t') rest (("true").data) (by decide) (by decide)
    have hf : ('[') :: rest ≠ ("false").data :=
      @cons_ne_of_head ('[') ('f') rest (("false").data) (by decide) (by decide)
    rw [parseValueCore_of_none _ (stripQuotes_cons_none ('[') rest (by decide) (by decide)),
      if_neg ht, if_neg hf, if_neg (by simp [hint]), if_pos ⟨h1, h2⟩]

theorem parseValueCore_str (t : List Char) (h0 : stripQuotes t = none)
    (ht : t ≠ ("true").data) (hf : t ≠ ("false").data) (hi : isIntLit t = false)
    (hb : ¬(t.head? = some ('[') ∧ t.getLast? = some (']'))) :
    parseValueCore t = Val.str (String.mk t) := by
  rw [parseValueCore_of_none t h0, if_neg ht, if_neg hf, if_neg (by simp [hi]), if_neg hb]

/-- C2 counterexample: the single-quoting rule as universally stated fails
for a string value containing both a glob wildcard and a single quote —
the serializer wraps it in double quotes instead, so the serialized line
does not carry the value in single quotes. -/
theorem c2_quoting_counterexample :
    ('*') ∈ (String.mk [('*'), sqC]).data ∧
    renderString (String.mk [('*'), sqC]) ≠
      sqC :: ((String.mk [('*'), sqC]).data ++ [sqC]) ∧
    hasSub (("applyTo: ").data ++ sqC :: ((String.mk [('*'), sqC]).data ++ [sqC]))
      (serialize [(("applyTo"), Val.str (String.mk [('*'), sqC]))] ("x")).data = false := by
  decide

/-- C2 (amended): a string value containing a glob wildcard or a colon
followed by a space is wrapped in single quotes, provided the value does
not itself contain a single quote (in which case double quotes are used);
in particular the three documented encodings carry the single-quoted value
on their frontmatter line. -/
theorem c2_quoting (s : String) (hnq : sqC ∉ s.data)
    (hw : ('*') ∈ s.data ∨ hasColonSpace s.data = true) :
    renderString s = sqC :: (s.data ++ [sqC]) ∧
    hasSub (("applyTo: ") ++ sqStr ++ ("**") ++ sqStr).data
      (serialize [(("applyTo"), Val.str ("**"))] ("Test content")).data = true ∧
    hasSub (("applyTo: ") ++ sqStr ++ ("**/*.py") ++ sqStr).data
      (serialize [(("applyTo"), Val.str ("**/*.py"))] ("Test content")).data = true ∧
    hasSub (("description: ") ++ sqStr ++ ("Test: description") ++ sqStr).data
      (serialize [(("description"), Val.str ("Test: description"))] ("Test content")).data = true := by
  refine ⟨?_, by decide, by decide, by decide⟩
  unfold renderString
  rw [if_neg hnq, if_pos]
  rcases hw with h | h
  · exact Or.inl h
  · exact Or.inr (Or.inl h)

/-- Witness for the amended quoting theorem at the concrete glob value. -/
theorem c2_quoting_witness :
    renderString ("**") = sqC :: (("**").data ++ [sqC]) :=
  (c2_quoting ("**") (by decide) (Or.inl (by decide))).1

/-- C3: decoding the single-quoted, double-quoted and bare spellings of the
value on an applyTo line yields in all three cases the identical metadata
value, the two-character string of glob wildcards, with the quote pair
stripped and never kept as content. -/
theorem c3_quote_equivalence :
    parse_frontmatter (("---\napplyTo: ") ++ sqStr ++ ("**") ++ sqStr ++ ("\n---\nContent.\n")) =
      ([(("applyTo"), Val.str ("**"))], ("Content.\n")) ∧
    parse_frontmatter (("---\napplyTo: ") ++ dqStr ++ ("**") ++ dqStr ++ ("\n---\nContent.\n")) =
      ([(("applyTo"), Val.str ("**"))], ("Content.\n")) ∧
    parse_frontmatter ("---\napplyTo: **\n---\nContent.\n") =
      ([(("applyTo"), Val.str ("**"))], ("Content.\n")) := by
  decide

/-- C4: every input whose first line is the opening delimiter but which has
no closing delimiter line before end of input decodes to empty metadata
together with the input unchanged; the parser is a total function, so no
exception reaches the caller. -/
theorem c4_malformed_soft (raw : String)
    (hopen : (splitOnChar ('\n') raw.data).head? = some (("---").data))
    (hnone : ∀ l ∈ (splitOnChar ('\n') raw.data).tail, l ≠ ("---").data) :
    parse_frontmatter raw = ([], raw) := by
  unfold parse_frontmatter
  cases h : splitOnChar ('\n') raw.data with
  | nil => rfl
  | cons first rest =>
    rw [h] at hopen hnone
    have h1 : first = ("---").data := by simpa using hopen
    have h2 : ∀ l ∈ rest, l ≠ ("---").data := by simpa using hnone
    simp only [parseFMLines, if_pos h1, splitAtDelim_none rest h2]

/-- Witness for the malformed-block theorem at the concrete malformed test
document with an opening delimiter and no closing one. -/
theorem c4_malformed_soft_witness :
    parse_frontmatter (("---\napplyTo: ") ++ sqStr ++ ("**") ++ sqStr ++
      ("\ndescription: Test\nThis content has malformed frontmatter.\n")) =
    ([], ("---\napplyTo: ") ++ sqStr ++ ("**") ++ sqStr ++
      ("\ndescription: Test\nThis content has malformed frontmatter.\n")) :=
  c4_malformed_soft _ (by decide) (by decide)

def commentsDoc : String :=
  ("---\n# This is a comment\napplyTo: ") ++ sqStr ++ ("**") ++ sqStr ++
  ("\n# Another comment\ndescription: Test description\n---\nContent body.\n")

/-- C5: within a well-formed frontmatter block the parser ignores comment
lines starting with a hash, maps the literal texts true and false to the
corresponding booleans, maps a valid integer literal to the integer it
denotes, maps a bracketed value to a list of strings, maps any other
unquoted value to the trimmed literal string, and on the concrete
commented test document produces exactly the non-comment pairs. -/
theorem c5_typed_scalars :
    (∀ l : List Char, (trimL l).head? = some ('#') → parseLine l = none) ∧
    (parseValue (("true").data) = Val.bool true ∧
      parseValue (("false").data) = Val.bool false) ∧
    (∀ cs : List Char, isIntLit (trim cs) = true →
      parseValue cs = Val.int (intOfLit (trim cs))) ∧
    (∀ cs : List Char, (trim cs).head? = some ('[') → (trim cs).getLast? = some (']') →
      parseValue cs = Val.list (parseListItems (((trim cs).drop 1).dropLast))) ∧
    (∀ cs : List Char, stripQuotes (trim cs) = none → trim cs ≠ ("true").data →
      trim cs ≠ ("false").data → isIntLit (trim cs) = false →
      ¬((trim cs).head? = some ('[') ∧ (trim cs).getLast? = some (']')) →
      parseValue cs = Val.str (String.mk (trim cs))) ∧
    parse_frontmatter commentsDoc =
      ([(("applyTo"), Val.str ("**")), (("description"), Val.str ("Test description"))],
        ("Content body.\n")) := by
  refine ⟨?_, by decide, ?_, ?_, ?_, by decide⟩
  · intro l h
    unfold parseLine
    rw [if_pos h]
  · intro cs h
    exact parseValueCore_int (trim cs) h
  · intro cs h1 h2
    exact parseValueCore_list (trim cs) h1 h2
  · intro cs h0 ht hf hi hb
    exact parseValueCore_str (trim cs) h0 ht hf hi hb

/-- Witness for the typed scalar parsing theorem at concrete comment lines
and values of each scalar shape. -/
theorem c5_typed_scalars_witness :
    parseLine (("# note").data) = none ∧
    parseValue (("42").data) = Val.int 42 ∧
    parseValue (("-7").data) = Val.int (-7) ∧
    parseValue (("[a, b]").data) = Val.list [("a"), ("b")] ∧
    parseValue (("hello").data) = Val.str ("hello") := by
  refine ⟨c5_typed_scalars.1 (("# note").data) (by decide), ?_, ?_, ?_, ?_⟩
  · rw [c5_typed_scalars.2.2.1 (("42").data) (by decide)]
    decide
  · rw [c5_typed_scalars.2.2.1 (("-7").data) (by decide)]
    decide
  · rw [c5_typed_scalars.2.2.2.1 (("[a, b]").data) (by decide) (by decide)]
    decide
  · rw [c5_typed_scalars.2.2.2.2.1 (("hello").data) (by decide) (by decide) (by decide)
      (by decide) (by decide)]
    decide

/-! Lookup lemmas for the filesystem model and the write atomicity claim. -/

theorem lookupL_eraseL_ne (l : List (String × String)) (p q : String) (h : q ≠ p) :
    lookupL (eraseL l p) q = lookupL l q := by
  induction l with
  | nil => rfl
  | cons e l ih =>
    by_cases he : e.1 = p
    · have hne : ¬(e.1 = q) := by
        rw [he]
        exact fun hh => h hh.symm
      simp only [eraseL, if_pos he, lookupL, if_neg hne, ih]
    · simp only [eraseL, if_neg he, lookupL, ih]

theorem lookupL_eraseL_self (l : List (String × String)) (p : String) :
    lookupL (eraseL l p) p = none := by
  induction l with
  | nil => rfl
  | cons e l ih =>
    by_cases he : e.1 = p
    · simp only [eraseL, if_pos he, ih]
    · simp only [eraseL, if_neg he, lookupL, if_neg he, ih]

theorem FS.lookup_erase_ne (fs : FS) (p q : String) (h : q ≠ p) :
    (fs.erase p).lookup q = fs.lookup q :=
  lookupL_eraseL_ne fs.files p q h

theorem FS.lookup_erase_self (fs : FS) (p : String) :
    (fs.erase p).lookup p = none :=
  lookupL_eraseL_self fs.files p

theorem FS.lookup_insert_self (fs : FS) (p v : String) :
    (fs.insert p v).lookup p = some v := by
  simp [FS.lookup, FS.insert, lookupL]

theorem FS.lookup_insert_ne (fs : FS) (p q v : String) (h : q ≠ p) :
    (fs.insert p v).lookup q = fs.lookup q := by
  have hne : ¬(p = q) := fun hh => h hh.symm
  simp only [FS.lookup, FS.insert, lookupL, if_neg hne]
  exact lookupL_eraseL_ne fs.files p q h

theorem ne_append_suffix (p s : String) (h : s.data ≠ []) : p ≠ p ++ s := by
  intro he
  have hd : p.data = p.data ++ s.data := by
    have h2 := congrArg String.data he
    rw [String.data_append] at h2
    exact h2
  have h3 := congrArg List.length hd
  rw [List.length_append] at h3
  have h4 : s.data.length = 0 := by omega
  exact h (List.length_eq_zero.mp h4)

theorem append_suffix_ne (p s t : String) (h : s.data ≠ t.data) : p ++ s ≠ p ++ t := by
  intro he
  have h2 := congrArg String.data he
  rw [String.data_append, String.data_append] at h2
  exact h (List.append_cancel_left h2)

/-- C6: for every write in which a failure occurs before completion — the
encoding fails, the temporary-file write fails, or the atomic replace
fails — the document previously stored at the target path has its original
content unchanged afterwards (restored from the backup in the
rename-failure case) and the operation reports an error, leaving no
partially written file at the target path. -/
theorem c6_write_atomicity (fs : FS) (path : String) (md : List (String × Val))
    (body : String) (o : WriteOutcome) (h : o ≠ WriteOutcome.success) :
    ((write_frontmatter_file fs path md body o).1).lookup path = fs.lookup path ∧
    ∃ e, (write_frontmatter_file fs path md body o).2 = Except.error e := by
  have hbak : path ≠ path ++ (".bak") := ne_append_suffix path (".bak") (by decide)
  have htmp : path ≠ path ++ (".tmp") := ne_append_suffix path (".tmp") (by decide)
  cases o with
  | success => exact absurd rfl h
  | encodeFail =>
    cases hcur : fs.lookup path with
    | some cur =>
      simp only [write_frontmatter_file, hcur]
      refine ⟨?_, _, rfl⟩
      rw [FS.lookup_erase_ne _ _ _ hbak, FS.lookup_insert_ne _ _ _ _ hbak, hcur]
    | none =>
      simp only [write_frontmatter_file, hcur]
      refine ⟨?_, _, rfl⟩
      rw [FS.lookup_erase_ne _ _ _ hbak]
      exact hcur
  | tmpFail =>
    cases hcur : fs.lookup path with
    | some cur =>
      simp only [write_frontmatter_file, hcur]
      refine ⟨?_, _, rfl⟩
      rw [FS.lookup_erase_ne _ _ _ htmp, FS.lookup_erase_ne _ _ _ hbak,
        FS.lookup_insert_ne _ _ _ _ hbak, hcur]
    | none =>
      simp only [write_frontmatter_file, hcur]
      refine ⟨?_, _, rfl⟩
      rw [FS.lookup_erase_ne _ _ _ htmp, FS.lookup_erase_ne _ _ _ hbak]
      exact hcur
  | renameFail =>
    cases hcur : fs.lookup path with
    | some cur =>
      simp only [write_frontmatter_file, hcur]
      refine ⟨?_, _, rfl⟩
      rw [FS.lookup_erase_ne _ _ _ htmp, FS.lookup_insert_self]
    | none =>
      simp only [write_frontmatter_file, hcur]
      refine ⟨?_, _, rfl⟩
      rw [FS.lookup_erase_ne _ _ _ htmp, FS.lookup_insert_ne _ _ _ _ htmp, hcur]

/-- Witness for the atomicity theorem: a rename failure over a store
holding one document leaves the stored content unchanged. -/
theorem c6_write_atomicity_witness :
    ((write_frontmatter_file (FS.mk [(("a.md"), ("old"))]) ("a.md")
        [(("description"), Val.str ("d"))] ("b") WriteOutcome.renameFail).1).lookup ("a.md") =
      (FS.mk [(("a.md"), ("old"))]).lookup ("a.md") ∧
    ∃ e, (write_frontmatter_file (FS.mk [(("a.md"), ("old"))]) ("a.md")
        [(("description"), Val.str ("d"))] ("b") WriteOutcome.renameFail).2 = Except.error e :=
  c6_write_atomicity (FS.mk [(("a.md"), ("old"))]) ("a.md")
    [(("description"), Val.str ("d"))] ("b") WriteOutcome.renameFail (by decide)

theorem firstIdxOf_none (target : List Char) (ls : List (List Char))
    (h : ∀ l ∈ ls, l ≠ target) : firstIdxOf target ls = none := by
  induction ls with
  | nil => rfl
  | cons l ls ih =>
    simp only [firstIdxOf, if_neg (h l (by simp)), ih (fun x hx => h x (by simp [hx]))]
    rfl

/-- C7: appending under a section header inserts the entry at the end of
that section's content block, before the next header line — on the
documented example the new entry lands between the old entry and the next
section rather than at the end of the document — and for every document
whose body contains no line equal to the header, the entry is appended at
the end of the body and the header line is not synthesized. -/
theorem c7_append_to_section :
    appendToSection ("## Memories\n- old entry\n## Other\n") ("## Memories") ("- new entry\n") =
      ("## Memories\n- old entry\n- new entry\n## Other\n") ∧
    ∀ (body header entry : String),
      (∀ l ∈ splitOnChar ('\n') body.data, l ≠ header.data) →
      appendToSection body header entry = body ++ entry := by
  refine ⟨by decide, ?_⟩
  intro body header entry h
  simp only [appendToSection]
  rw [firstIdxOf_none header.data (splitOnChar ('\n') body.data) h]

/-- Witness for the header-not-found branch of the append theorem. -/
theorem c7_append_to_section_witness :
    appendToSection ("just text\n") ("## Memories") ("- x\n") =
      ("just text\n") ++ ("- x\n") :=
  c7_append_to_section.2 ("just text\n") ("## Memories") ("- x\n") (by decide)

/-- C8: starting from a directory not containing the file, create
succeeds, a subsequent read returns metadata and body matching what was
created, a subsequent delete succeeds, and a read after the delete fails
with NotFoundError. -/
theorem c8_crud_lifecycle (fs : FS) (h : fs.lookup ("x.md") = none) :
    ∃ fs₁,
      create_document fs ("x.md") [(("description"), Val.str ("d"))] ("body") =
        Except.ok fs₁ ∧
      read_document fs₁ ("x.md") =
        Except.ok ([(("description"), Val.str ("d"))], ("body")) ∧
      ∃ fs₂, delete_document fs₁ ("x.md") = Except.ok fs₂ ∧
        read_document fs₂ ("x.md") = Except.error (("NotFoundError: ") ++ ("x.md")) := by
  refine ⟨fs.insert ("x.md") (serialize [(("description"), Val.str ("d"))] ("body")),
    ?_, ?_, ?_⟩
  · simp only [create_document, h]
  · simp only [read_document, FS.lookup_insert_self]
    rw [show parse_frontmatter (serialize [(("description"), Val.str ("d"))] ("body")) =
      ([(("description"), Val.str ("d"))], ("body")) from by decide]
  · refine ⟨(fs.insert ("x.md")
        (serialize [(("description"), Val.str ("d"))] ("body"))).erase ("x.md"), ?_, ?_⟩
    · simp only [delete_document, FS.lookup_insert_self]
    · simp only [read_document, FS.lookup_erase_self]

/-- Witness for the CRUD lifecycle theorem starting from the empty
directory. -/
theorem c8_crud_lifecycle_witness :
    ∃ fs₁,
      create_document (FS.mk []) ("x.md") [(("description"), Val.str ("d"))] ("body") =
        Except.ok fs₁ ∧
      read_document fs₁ ("x.md") =
        Except.ok ([(("description"), Val.str ("d"))], ("body")) ∧
      ∃ fs₂, delete_document fs₁ ("x.md") = Except.ok fs₂ ∧
        read_document fs₂ ("x.md") = Except.error (("NotFoundError: ") ++ ("x.md")) :=
  c8_crud_lifecycle (FS.mk []) (by decide)

/-! The error-boundary and read-only claims over the tool layer. -/

theorem excOk_toolResult {σ α : Type} (f : α → String) (g h : String → String)
    (w : σ × Except PyExc α) : excOk (toolResult f g h w).2 = true := by
  rcases w with ⟨s₂, e | v⟩
  · cases e <;> rfl
  · rfl

theorem excOk_toolResultAll {σ α : Type} (f : α → String) (g : String → String)
    (w : σ × Except PyExc α) : excOk (toolResultAll f g w).2 = true := by
  rcases w with ⟨s₂, e | v⟩
  · rfl
  · rfl

theorem excOk_rememberFinish {σ : Type} (mi : String) (w : σ × Except PyExc Bool) :
    excOk (rememberFinish mi w).2 = true := by
  rcases w with ⟨s₄, e | v⟩
  · rfl
  · rfl

theorem excOk_rememberCore {σ : Type} (mi : String) (sit : Bool) (gr sa : Op σ String)
    (up : String → Op σ Bool) (ts : String) (s₁ : σ) :
    excOk (rememberCore mi sit gr sa up ts s₁).2 = true := by
  unfold rememberCore
  rcases h : gr s₁ with ⟨s₂, e | mc⟩
  · rfl
  · exact excOk_rememberFinish _ _

/-- C9: every registered MCP tool — the listing, get, create, update and
delete tools for chatmodes and instructions, the prompts-directory and
library tools, and the memory tool — catches every exception raised by its
inner operations and returns a string result, a descriptive error message
on failure, rather than propagating the exception to the hosting process:
for every state, input and oracle outcome the tool result is an ok
string. -/
theorem c9_tools_never_raise :
    (∀ (σ : Type) (op : Op σ (List ChatmodeInfo)) (s : σ),
      excOk (list_chatmodes op s).2 = true) ∧
    (∀ (σ : Type) (op : Op σ String) (f : String) (s : σ),
      excOk (get_chatmode op f s).2 = true) ∧
    (∀ (σ : Type) (ro : Bool) (op : Option (List String) → Op σ Bool) (f : String)
      (t : Option String) (s : σ), excOk (create_chatmode ro op f t s).2 = true) ∧
    (∀ (σ : Type) (ro : Bool) (g : Op σ (List (String × Val)))
      (u : List (String × Val) → Option String → Op σ Bool) (f : String)
      (d c t : Option String) (s : σ),
      excOk (update_chatmode ro g u f d c t s).2 = true) ∧
    (∀ (σ : Type) (ro : Bool) (op : Op σ Bool) (f : String) (s : σ),
      excOk (delete_chatmode ro op f s).2 = true) ∧
    (∀ (σ : Type) (ro : Bool) (op : Op σ String) (f : String) (s : σ),
      excOk (update_chatmode_from_source ro op f s).2 = true) ∧
    (∀ (σ : Type) (op : Op σ (List InstructionInfo)) (s : σ),
      excOk (list_instructions op s).2 = true) ∧
    (∀ (σ : Type) (op : Op σ String) (f : String) (s : σ),
      excOk (get_instruction op f s).2 = true) ∧
    (∀ (σ : Type) (ro : Bool) (op : Op σ Bool) (f : String) (s : σ),
      excOk (create_instruction ro op f s).2 = true) ∧
    (∀ (σ : Type) (ro : Bool)
      (op : Option (List (String × Val)) → Option String → Op σ Bool)
      (f : String) (d c : Option String) (s : σ),
      excOk (update_instruction ro op f d c s).2 = true) ∧
    (∀ (σ : Type) (ro : Bool) (op : Op σ Bool) (f : String) (s : σ),
      excOk (delete_instruction ro op f s).2 = true) ∧
    (∀ (σ : Type) (op : Op σ PromptsDirInfo) (s : σ),
      excOk (get_prompts_directory op s).2 = true) ∧
    (∀ (σ : Type) (op : Op σ LibraryData) (s : σ),
      excOk (browse_mode_library op s).2 = true) ∧
    (∀ (σ : Type) (ro : Bool) (op : Op σ InstallResult) (s : σ),
      excOk (install_from_library ro op s).2 = true) ∧
    (∀ (σ : Type) (op : Op σ RefreshResult) (s : σ),
      excOk (refresh_library op s).2 = true) ∧
    (∀ (σ : Type) (op : Op σ String) (s : σ),
      excOk (util_get_prompts_directory op s).2 = true) ∧
    (∀ (σ : Type) (ro sit : Bool) (mi mp ts : String) (ex : σ → Bool)
      (cr : Op σ Bool) (gr : Op σ String) (sa : Op σ String)
      (up : String → Op σ Bool) (s : σ),
      excOk (remember ro mi mp ex cr gr sa sit up ts s).2 = true) := by
  refine ⟨?_, ?_, ?_, ?_, ?_, ?_, ?_, ?_, ?_, ?_, ?_, ?_, ?_, ?_, ?_, ?_, ?_⟩
  · intro σ op s
    exact excOk_toolResultAll _ _ (op s)
  · intro σ op f s
    exact excOk_toolResult _ _ _ (op s)
  · intro σ ro op f t s
    cases ro
    · exact excOk_toolResult _ _ _ (op (parseToolsArg t) s)
    · rfl
  · intro σ ro g u f d c t s
    cases ro
    · unfold update_chatmode
      rcases h : g s with ⟨s₂, e | current⟩
      · cases e <;> rfl
      · exact excOk_toolResult _ _ _ _
    · rfl
  · intro σ ro op f s
    cases ro
    · exact excOk_toolResult _ _ _ (op s)
    · rfl
  · intro σ ro op f s
    cases ro
    · exact excOk_toolResult _ _ _ (op s)
    · rfl
  · intro σ op s
    exact excOk_toolResultAll _ _ (op s)
  · intro σ op f s
    exact excOk_toolResult _ _ _ (op s)
  · intro σ ro op f s
    cases ro
    · exact excOk_toolResult _ _ _ (op s)
    · rfl
  · intro σ ro op f d c s
    cases ro
    · exact excOk_toolResult _ _ _ _
    · rfl
  · intro σ ro op f s
    cases ro
    · exact excOk_toolResult _ _ _ (op s)
    · rfl
  · intro σ op s
    exact excOk_toolResultAll _ _ (op s)
  · intro σ op s
    exact excOk_toolResult _ _ _ (op s)
  · intro σ ro op s
    cases ro
    · exact excOk_toolResult _ _ _ (op s)
    · rfl
  · intro σ op s
    exact excOk_toolResult _ _ _ (op s)
  · intro σ op s
    exact excOk_toolResultAll _ _ (op s)
  · intro σ ro sit mi mp ts ex cr gr sa up s
    cases ro
    · by_cases hmi : trim mi.data = []
      · unfold remember
        rw [if_neg (by simp), if_pos hmi]
        rfl
      · unfold remember
        rw [if_neg (by simp), if_neg hmi]
        cases hex : ex s
        · rcases h1 : cr s with ⟨s₁, e | b⟩
          · rfl
          · cases b
            · rfl
            · exact excOk_rememberCore mi sit gr sa up ts s₁
        · exact excOk_rememberCore mi sit gr sa up ts s
    · rfl

/-- C10: when the environment variable `MCP_CHATMODE_READ_ONLY` equals
`true` compared case-insensitively, the read-only flag is set and every
mutating tool — create, update and delete for chatmodes and instructions,
update-from-source, install-from-library and remember — returns the
read-only error string and leaves the state untouched, performing none of
its operations, so no file in the prompts directory is created, modified
or deleted by these tool calls. -/
theorem c10_read_only_guard (env : List (String × String)) (v : String)
    (hv : envLookup env ("MCP_CHATMODE_READ_ONLY") = some v)
    (hl : lowerStr v = ("true")) :
    readOnlyFlag env = true ∧
    (∀ (σ : Type) (op : Option (List String) → Op σ Bool) (f : String)
      (t : Option String) (s : σ),
      create_chatmode (readOnlyFlag env) op f t s =
        (s, Except.ok ("Error: Server is running in read-only mode"))) ∧
    (∀ (σ : Type) (g : Op σ (List (String × Val)))
      (u : List (String × Val) → Option String → Op σ Bool) (f : String)
      (d c t : Option String) (s : σ),
      update_chatmode (readOnlyFlag env) g u f d c t s =
        (s, Except.ok ("Error: Server is running in read-only mode"))) ∧
    (∀ (σ : Type) (op : Op σ Bool) (f : String) (s : σ),
      delete_chatmode (readOnlyFlag env) op f s =
        (s, Except.ok ("Error: Server is running in read-only mode"))) ∧
    (∀ (σ : Type) (op : Op σ String) (f : String) (s : σ),
      update_chatmode_from_source (readOnlyFlag env) op f s =
        (s, Except.ok ("Error: Server is running in read-only mode"))) ∧
    (∀ (σ : Type) (op : Op σ Bool) (f : String) (s : σ),
      create_instruction (readOnlyFlag env) op f s =
        (s, Except.ok ("Error: Server is running in read-only mode"))) ∧
    (∀ (σ : Type) (op : Option (List (String × Val)) → Option String → Op σ Bool)
      (f : String) (d c : Option String) (s : σ),
      update_instruction (readOnlyFlag env) op f d c s =
        (s, Except.ok ("Error: Server is running in read-only mode"))) ∧
    (∀ (σ : Type) (op : Op σ Bool) (f : String) (s : σ),
      delete_instruction (readOnlyFlag env) op f s =
        (s, Except.ok ("Error: Server is running in read-only mode"))) ∧
    (∀ (σ : Type) (op : Op σ InstallResult) (s : σ),
      install_from_library (readOnlyFlag env) op s =
        (s, Except.ok ("Error: Server is running in read-only mode"))) ∧
    (∀ (σ : Type) (sit : Bool) (mi mp ts : String) (ex : σ → Bool) (cr : Op σ Bool)
      (gr sa : Op σ String) (up : String → Op σ Bool) (s : σ),
      remember (readOnlyFlag env) mi mp ex cr gr sa sit up ts s =
        (s, Except.ok ("Error: Server is running in read-only mode"))) := by
  have hro : readOnlyFlag env = true := by
    unfold readOnlyFlag getenvD
    rw [hv]
    simp [hl]
  refine ⟨hro, ?_, ?_, ?_, ?_, ?_, ?_, ?_, ?_, ?_⟩ <;> rw [hro] <;> intros <;> rfl

/-- Witness for the read-only guard at a concrete environment using an
uppercase spelling of the flag value, exercising the case-insensitive
comparison, with a concrete state and oracle. -/
theorem c10_read_only_guard_witness :
    readOnlyFlag [(("MCP_CHATMODE_READ_ONLY"), ("TRUE"))] = true ∧
    create_chatmode (readOnlyFlag [(("MCP_CHATMODE_READ_ONLY"), ("TRUE"))])
      (fun _ (s : Nat) => (s + 1, Except.ok true)) ("a.chatmode.md") none 0 =
      (0, Except.ok ("Error: Server is running in read-only mode")) :=
  ⟨(c10_read_only_guard [(("MCP_CHATMODE_READ_ONLY"), ("TRUE"))] ("TRUE")
      (by decide) (by decide)).1,
    (c10_read_only_guard [(("MCP_CHATMODE_READ_ONLY"), ("TRUE"))] ("TRUE")
      (by decide) (by decide)).2.1 Nat
      (fun _ s => (s + 1, Except.ok true)) ("a.chatmode.md") none 0⟩
